import Mathlib

/-!
Shallow embedding of the two browser-side modules of this repository:
the contact-form handler (validation + email submission) and the i18n
helper (language detection, dictionary cache, translation lookup).

JS strings are modelled as Lean `String`; string length counts characters
and the whitespace class is `Char.isWhitespace`, abstracting the UTF-16
code-unit and Unicode-whitespace details that no claim depends on.
-/

/-- Embedding of JS `String.prototype.trim`: drop whitespace from both ends. -/
def jsTrim (s : String) : String :=
  String.mk (((s.toList.dropWhile Char.isWhitespace).reverse.dropWhile
      Char.isWhitespace).reverse)

/-- Embedding of the JS idiom `a || b` on an optional string: `undefined`/`null`
and the empty string are falsy and yield `b`. -/
def jsOr (a : Option String) (b : String) : String :=
  match a with
  | some s => if s = "" then b else s
  | none => b

/-- Split a character list at every occurrence of `sep`; always returns a
nonempty list, like JS `String.prototype.split`. -/
def splitChar (sep : Char) : List Char → List (List Char)
  | [] => [[]]
  | c :: rest =>
    match splitChar sep rest with
    | [] => [[c]]
    | h :: t => if c = sep then [] :: h :: t else (c :: h) :: t

/-- Embedding of JS `s.split(sep)` for a one-character separator. -/
def jsSplit (sep : Char) (s : String) : List String :=
  (splitChar sep s.toList).map String.mk

theorem splitChar_ne_nil (sep : Char) (cs : List Char) : splitChar sep cs ≠ [] := by
  induction cs with
  | nil => simp [splitChar]
  | cons c rest ih =>
    simp only [splitChar]
    split
    · simp
    · split <;> simp

theorem jsSplit_ne_nil (sep : Char) (s : String) : jsSplit sep s ≠ [] := by
  simp [jsSplit, splitChar_ne_nil]

/-! ## Contact form: field validators (source `part_000`, lines 38-95) -/

/-- Validator for the name field: `!value || value.trim().length < 4`. -/
def validators.name (value : String) : Option String :=
  if value = "" ∨ (jsTrim value).length < 4 then
    some "Please enter at least 4 characters"
  else
    none

/-- Embedding of the test of `/^[^\s@]+@[^\s@]+\.[^\s@]+$/`: the string has
exactly one `@`; the part before it is nonempty and whitespace-free; the part
after it is whitespace-free and contains a `.` at an interior position (so both
regex pieces around the dot are nonempty).  Splitting on `@` yields exactly two
pieces iff there is exactly one `@`, and the pieces contain no `@`. -/
def emailRegexTest (s : String) : Bool :=
  match jsSplit '@' s with
  | [loc, dom] =>
      loc ≠ "" && loc.toList.all (fun c => !c.isWhitespace) &&
      dom.toList.all (fun c => !c.isWhitespace) &&
      dom.toList.tail.dropLast.contains '.'
  | _ => false

/-- Validator for the email field: `!value || !emailRegex.test(value)`. -/
def validators.email (value : String) : Option String :=
  if value = "" ∨ emailRegexTest value = false then
    some "Please enter a valid email address"
  else
    none

/-- Validator for the subject field: `!value || value.trim().length < 4`. -/
def validators.subject (value : String) : Option String :=
  if value = "" ∨ (jsTrim value).length < 4 then
    some "Please enter at least 4 characters"
  else
    none

/-- Validator for the message field: `!value || value.trim().length < 10`. -/
def validators.message (value : String) : Option String :=
  if value = "" ∨ (jsTrim value).length < 10 then
    some "Please write at least 10 characters"
  else
    none

/-- The form input record built in `handleSubmit`. -/
structure FormData where
  name : String
  email : String
  subject : String
  message : String

/-- The `errors` object of `validateForm`: one entry per failing field. -/
structure FieldErrors where
  name : Option String
  email : Option String
  subject : Option String
  message : Option String

/-- The `{ isValid, errors }` record returned by `validateForm`. -/
structure ValidationResult where
  isValid : Bool
  errors : FieldErrors

/-- Embedding of `validateForm`: the `forEach` over the four validator keys
(name, email, subject, message) is unrolled; `isValid` starts true and is
cleared by any error, i.e. it is the conjunction of the four checks passing. -/
def validateForm (formData : FormData) : ValidationResult :=
  let errName := validators.name formData.name
  let errEmail := validators.email formData.email
  let errSubject := validators.subject formData.subject
  let errMessage := validators.message formData.message
  { isValid := errName.isNone && errEmail.isNone && errSubject.isNone &&
      errMessage.isNone
    errors := { name := errName
                email := errEmail
                subject := errSubject
                message := errMessage } }

theorem jsTrim_empty : jsTrim "" = "" := rfl

/-- C2: the name and subject validators error exactly when the trimmed string
has fewer than 4 characters (exactly 4 passes), and the message validator
errors exactly when the trimmed string has fewer than 10 characters
(exactly 10 passes). -/
theorem validators_trim_boundaries (v : String) :
    ((validators.name v).isSome ↔ (jsTrim v).length < 4) ∧
    ((validators.subject v).isSome ↔ (jsTrim v).length < 4) ∧
    ((validators.message v).isSome ↔ (jsTrim v).length < 10) := by
  have hempty : v = "" → (jsTrim v).length = 0 := by
    intro h; subst h; rfl
  refine ⟨?_, ?_, ?_⟩ <;>
    simp only [validators.name, validators.subject, validators.message] <;>
    split <;>
    rename_i h <;>
    simp only [Option.isSome_some, Option.isSome_none, true_iff,
      Bool.false_eq_true, false_iff, not_lt]
  · rcases h with h | h
    · simp [hempty h]
    · exact h
  · omega
  · rcases h with h | h
    · simp [hempty h]
    · exact h
  · omega
  · rcases h with h | h
    · simp [hempty h]
    · exact h
  · omega

/-- C3: whole-form validation is invalid iff at least one of the four field
validators errors, and the error map holds exactly each field validator's
result. -/
theorem validateForm_spec (fd : FormData) :
    ((validateForm fd).isValid = false ↔
      ((validators.name fd.name).isSome ∨ (validators.email fd.email).isSome ∨
       (validators.subject fd.subject).isSome ∨
       (validators.message fd.message).isSome)) ∧
    (validateForm fd).errors.name = validators.name fd.name ∧
    (validateForm fd).errors.email = validators.email fd.email ∧
    (validateForm fd).errors.subject = validators.subject fd.subject ∧
    (validateForm fd).errors.message = validators.message fd.message := by
  refine ⟨?_, by rfl, by rfl, by rfl, by rfl⟩
  simp only [validateForm]
  cases validators.name fd.name <;> cases validators.email fd.email <;>
    cases validators.subject fd.subject <;>
    cases validators.message fd.message <;> simp

/-! ## Contact form: configuration and submission (source `part_000`,
lines 21-32, 196-250, 311-372) -/

/-- The `EMAIL_CONFIG` record shape. -/
structure EmailConfig where
  serviceID : String
  templateID : String
  publicKey : String

/-- The concrete `EMAIL_CONFIG` constant of the source. -/
def EMAIL_CONFIG : EmailConfig :=
  { serviceID := "artesanous"
    templateID := "endev001"
    publicKey := "LrvW_eq15TU-SfpRs" }

/-- Embedding of `isConfigured`: all three identifiers differ from their
placeholder values. -/
def isConfigured (cfg : EmailConfig) : Bool :=
  cfg.serviceID != "YOUR_SERVICE_ID" && cfg.templateID != "YOUR_TEMPLATE_ID" &&
    cfg.publicKey != "YOUR_PUBLIC_KEY"

/-- Raw DOM field values at submit time; `none` models a field element absent
from the page (`UI.elements.fields.x?.value` is then `undefined`). -/
structure RawFields where
  name : Option String
  email : Option String
  subject : Option String
  message : Option String

/-- Embedding of `UI.elements.fields.x?.value?.trim() || ''`. -/
def extractField (v : Option String) : String :=
  jsOr (v.map jsTrim) ""

/-- The `formData` object built at the top of `handleSubmit`. -/
def formDataOf (raw : RawFields) : FormData :=
  { name := extractField raw.name
    email := extractField raw.email
    subject := extractField raw.subject
    message := extractField raw.message }

/-- The `templateParams` object handed to the external `emailjs.send`. -/
structure TemplateParams where
  from_name : String
  from_email : String
  subject : String
  message : String
  to_email : String

/-- The template parameters `EmailService.send` builds from the form data:
the four fields plus the fixed recipient address. -/
def EmailService.sendParams (formData : FormData) : TemplateParams :=
  { from_name := formData.name
    from_email := formData.email
    subject := formData.subject
    message := formData.message
    to_email := "contact@endev.us" }

/-- Outcome of `EmailService.init` at page setup: false when the external
emailjs library is not loaded or the configuration is incomplete, true
otherwise (the successful `emailjs.init` call is external). -/
def EmailService.initReady (emailjsLoaded : Bool) (cfg : EmailConfig) : Bool :=
  if emailjsLoaded = false then false
  else if isConfigured cfg = false then false
  else true

/-- The externally visible action a single `handleSubmit` invocation takes. -/
inductive SubmitAction where
  | fieldErrors (errors : FieldErrors)
  | configError
  | sendRejected
  | sendEmail (params : TemplateParams)

/-- Embedding of `ContactForm.handleSubmit` together with the guard inside
`EmailService.send`: build the trimmed form data, validate, check the
configuration, then either reject (uninitialized service, no external call)
or perform the one external `emailjs.send` call with the template
parameters. -/
def handleSubmit (cfg : EmailConfig) (ready : Bool) (raw : RawFields) :
    SubmitAction :=
  let formData := formDataOf raw
  let validation := validateForm formData
  if validation.isValid = false then SubmitAction.fieldErrors validation.errors
  else if isConfigured cfg = false then SubmitAction.configError
  else if ready = false then SubmitAction.sendRejected
  else SubmitAction.sendEmail (EmailService.sendParams formData)

theorem extractField_eq_trim_jsOr (v : Option String) :
    extractField v = jsTrim (jsOr v "") := by
  cases v with
  | none => rfl
  | some s =>
    simp only [extractField, jsOr, Option.map_some]
    split
    · rename_i h
      by_cases hs : s = "" <;> simp_all
    · rename_i h
      by_cases hs : s = "" <;> simp_all

/-- C1: with the email service set up at page load (library present), the
submit handler performs the external send exactly when whole-form validation
passes and the client is configured; the one send call carries the four
trimmed field values plus the fixed recipient; an unconfigured client (any
identifier still equal to its placeholder) never reaches the send and, when
validation passed, shows the configuration-error banner instead. -/
theorem handleSubmit_send_spec (cfg : EmailConfig) (ready : Bool)
    (raw : RawFields) (hready : ready = EmailService.initReady true cfg) :
    (handleSubmit cfg ready raw =
        SubmitAction.sendEmail (EmailService.sendParams (formDataOf raw)) ↔
      (validateForm (formDataOf raw)).isValid = true ∧
        isConfigured cfg = true) ∧
    (∀ p, handleSubmit cfg ready raw = SubmitAction.sendEmail p →
      p = EmailService.sendParams (formDataOf raw)) ∧
    ((validateForm (formDataOf raw)).isValid = true → isConfigured cfg = false →
      handleSubmit cfg ready raw = SubmitAction.configError) ∧
    (isConfigured cfg = false ↔
      (cfg.serviceID = "YOUR_SERVICE_ID" ∨ cfg.templateID = "YOUR_TEMPLATE_ID" ∨
        cfg.publicKey = "YOUR_PUBLIC_KEY")) ∧
    (EmailService.sendParams (formDataOf raw) =
      { from_name := jsTrim (jsOr raw.name "")
        from_email := jsTrim (jsOr raw.email "")
        subject := jsTrim (jsOr raw.subject "")
        message := jsTrim (jsOr raw.message "")
        to_email := "contact@endev.us" }) := by
  subst hready
  refine ⟨?_, ?_, ?_, ?_, ?_⟩
  · cases hv : (validateForm (formDataOf raw)).isValid <;>
      cases hc : isConfigured cfg <;>
      simp [handleSubmit, EmailService.initReady, hv, hc]
  · intro p hp
    cases hv : (validateForm (formDataOf raw)).isValid <;>
      cases hc : isConfigured cfg <;>
      simp [handleSubmit, EmailService.initReady, hv, hc] at hp
    simp [hp]
  · intro hv hc
    simp [handleSubmit, hv, hc]
  · by_cases h1 : cfg.serviceID = "YOUR_SERVICE_ID" <;>
      by_cases h2 : cfg.templateID = "YOUR_TEMPLATE_ID" <;>
      by_cases h3 : cfg.publicKey = "YOUR_PUBLIC_KEY" <;>
      simp [isConfigured, h1, h2, h3]
  · simp only [EmailService.sendParams, formDataOf, extractField_eq_trim_jsOr]

/-- Witness for C1: a concrete valid submission against the repository's own
(configured) `EMAIL_CONFIG` takes the send action. -/
theorem handleSubmit_send_spec_witness :
    handleSubmit EMAIL_CONFIG (EmailService.initReady true EMAIL_CONFIG)
        { name := some "John Doe"
          email := some " john@example.com "
          subject := some "Job offer"
          message := some "We would like to talk." }
      = SubmitAction.sendEmail (EmailService.sendParams (formDataOf
        { name := some "John Doe"
          email := some " john@example.com "
          subject := some "Job offer"
          message := some "We would like to talk." })) :=
  (handleSubmit_send_spec EMAIL_CONFIG _ _ rfl).1.mpr ⟨by decide, by decide⟩

/-! ## i18n module (source `assets/js/i18n.js`) -/

/-- A JSON translation dictionary value: a string leaf or a nested object.
Translation files are nested string trees, so other JSON value kinds do not
occur. -/
inductive JsonValue where
  | str (s : String)
  | obj (fields : List (String × JsonValue))

/-- JS truthiness on dictionary values: the empty string is falsy, every other
string and every object (even an empty one) is truthy. -/
def jsTruthy : JsonValue → Bool
  | JsonValue.str s => s != ""
  | JsonValue.obj _ => true

/-- JS property read `value[k]` on a dictionary value: a missing property and
any property of a string leaf are `undefined` (`none`).  (Exotic string
properties such as `length` lie outside the dictionary model.) -/
def getProp : JsonValue → String → Option JsonValue
  | JsonValue.str _, _ => none
  | JsonValue.obj fields, k => fields.lookup k

/-- Whether a `JsonValue` is a string leaf. -/
def JsonValue.isString : JsonValue → Bool
  | JsonValue.str _ => true
  | JsonValue.obj _ => false

/-- The supported language codes (`availableLanguages`). -/
def availableLanguages : List String := ["en", "es", "fr", "de", "pt"]

/-- The fixed fallback language (`defaultLanguage`). -/
def defaultLanguage : String := "en"

/-- One iteration of the loop of `translate`: the guard
`value && value[keys[i]]` passes exactly when the current value is present and
truthy and its `k` property is present and truthy; then the walk continues at
that property. -/
def descend (value : Option JsonValue) (k : String) : Option JsonValue :=
  match value with
  | none => none
  | some v =>
    if jsTruthy v = false then none
    else
      match getProp v k with
      | none => none
      | some w => if jsTruthy w = false then none else some w

/-- The loop of `translate`: walk the remaining key segments; whenever the
guard fails, return the key itself and record the `console.warn`.  The
empty-segment case with an absent dictionary cannot arise from `translate`,
since splitting a string never yields an empty list. -/
def i18n.translateGo (key : String) : Option JsonValue → List String →
    JsonValue × Bool
  | some v, [] => (v, false)
  | none, [] => (JsonValue.str key, true)
  | value, k :: rest =>
    match descend value k with
    | some w => i18n.translateGo key (some w) rest
    | none => (JsonValue.str key, true)

/-- Embedding of `i18n.translate`: split the key on `.`, start from the
current language's cached dictionary, and walk the segments.  The second
component records whether the missing-translation warning was logged. -/
def i18n.translate (translations : List (String × JsonValue))
    (currentLanguage : String) (key : String) : JsonValue × Bool :=
  i18n.translateGo key (translations.lookup currentLanguage) (jsSplit '.' key)

/-- Pure key-path resolution in a dictionary: descend through object fields
only; `none` when some segment is missing (or an intermediate value is a
leaf). -/
def resolvePath : Option JsonValue → List String → Option JsonValue
  | v, [] => v
  | some (JsonValue.obj fields), k :: rest => resolvePath (fields.lookup k) rest
  | some (JsonValue.str _), _ :: _ => none
  | none, _ :: _ => none

theorem jsTruthy_false_iff (v : JsonValue) :
    jsTruthy v = false ↔ v = JsonValue.str "" := by
  cases v with
  | str s => simp [jsTruthy]
  | obj fields => simp [jsTruthy]

theorem descend_none (k : String) : descend none k = none := rfl

theorem descend_str (s k : String) :
    descend (some (JsonValue.str s)) k = none := by
  cases h : (s != "") <;> simp [descend, jsTruthy, getProp, h]

theorem descend_obj (fields : List (String × JsonValue)) (k : String) :
    descend (some (JsonValue.obj fields)) k =
      match fields.lookup k with
      | none => none
      | some w => if jsTruthy w = false then none else some w := rfl

theorem descend_obj_lookup_none (fields : List (String × JsonValue))
    (k : String) (hl : fields.lookup k = none) :
    descend (some (JsonValue.obj fields)) k = none := by
  rw [descend_obj, hl]

theorem descend_obj_lookup_some (fields : List (String × JsonValue))
    (k : String) (w : JsonValue) (hl : fields.lookup k = some w) :
    descend (some (JsonValue.obj fields)) k =
      if jsTruthy w = false then none else some w := by
  rw [descend_obj, hl]

theorem translateGo_cons (key : String) (value : Option JsonValue)
    (k : String) (rest : List String) :
    i18n.translateGo key value (k :: rest) =
      match descend value k with
      | some w => i18n.translateGo key (some w) rest
      | none => (JsonValue.str key, true) := by
  cases value <;> rfl

theorem translateGo_of_resolve_none (key : String) (ks : List String)
    (value : Option JsonValue) (hne : ks ≠ [])
    (h : resolvePath value ks = none) :
    i18n.translateGo key value ks = (JsonValue.str key, true) := by
  induction ks generalizing value with
  | nil => exact absurd rfl hne
  | cons k rest ih =>
    rw [translateGo_cons]
    cases value with
    | none => rfl
    | some v =>
      cases v with
      | str s => rw [descend_str]
      | obj fields =>
        simp only [resolvePath] at h
        cases hl : fields.lookup k with
        | none => rw [descend_obj_lookup_none fields k hl]
        | some w =>
          rw [hl] at h
          rw [descend_obj_lookup_some fields k w hl]
          by_cases htw : jsTruthy w = false
          · rw [if_pos htw]
          · rw [if_neg htw]
            cases rest with
            | nil => simp [resolvePath] at h
            | cons k2 rest2 => exact ih (some w) (by simp) h

theorem translateGo_of_resolve_falsy (key : String) (ks : List String)
    (value : Option JsonValue) (v : JsonValue) (hne : ks ≠ [])
    (h : resolvePath value ks = some v) (hf : jsTruthy v = false) :
    i18n.translateGo key value ks = (JsonValue.str key, true) := by
  induction ks generalizing value with
  | nil => exact absurd rfl hne
  | cons k rest ih =>
    rw [translateGo_cons]
    cases value with
    | none => simp [resolvePath] at h
    | some w0 =>
      cases w0 with
      | str s => simp [resolvePath] at h
      | obj fields =>
        simp only [resolvePath] at h
        cases hl : fields.lookup k with
        | none =>
          rw [hl] at h
          cases rest <;> simp [resolvePath] at h
        | some w =>
          rw [hl] at h
          rw [descend_obj_lookup_some fields k w hl]
          by_cases htw : jsTruthy w = false
          · rw [if_pos htw]
          · rw [if_neg htw]
            cases rest with
            | nil =>
              simp only [resolvePath, Option.some.injEq] at h
              subst h
              exact absurd hf htw
            | cons k2 rest2 => exact ih (some w) (by simp) h

theorem translateGo_of_resolve_truthy (key : String) (ks : List String)
    (value : Option JsonValue) (v : JsonValue)
    (h : resolvePath value ks = some v) (ht : jsTruthy v = true) :
    i18n.translateGo key value ks = (v, false) := by
  induction ks generalizing value with
  | nil =>
    cases value with
    | none => simp [resolvePath] at h
    | some w =>
      simp only [resolvePath, Option.some.injEq] at h
      subst h
      rfl
  | cons k rest ih =>
    rw [translateGo_cons]
    cases value with
    | none => simp [resolvePath] at h
    | some w0 =>
      cases w0 with
      | str s => simp [resolvePath] at h
      | obj fields =>
        simp only [resolvePath] at h
        cases hl : fields.lookup k with
        | none =>
          rw [hl] at h
          cases rest <;> simp [resolvePath] at h
        | some w =>
          rw [hl] at h
          rw [descend_obj_lookup_some fields k w hl]
          by_cases htw : jsTruthy w = false
          · have hw : w = JsonValue.str "" := (jsTruthy_false_iff w).mp htw
            subst hw
            cases rest with
            | nil =>
              simp only [resolvePath, Option.some.injEq] at h
              subst h
              rw [ht] at htw
              exact absurd htw (by simp)
            | cons k2 rest2 => simp [resolvePath] at h
          · rw [if_neg htw]
            exact ih (some w) h

/-- C6: for every key whose dot-separated path does not fully resolve in the
loaded dictionary, `translate` returns the key string itself (not empty, no
exception) and logs the missing-translation warning. -/
theorem translate_missing_key (translations : List (String × JsonValue))
    (lang key : String)
    (h : resolvePath (translations.lookup lang) (jsSplit '.' key) = none) :
    i18n.translate translations lang key = (JsonValue.str key, true) :=
  translateGo_of_resolve_none key (jsSplit '.' key)
    (translations.lookup lang) (jsSplit_ne_nil '.' key) h

/-- Witness for C6 on a concrete dictionary missing the requested key. -/
theorem translate_missing_key_witness :
    i18n.translate
        [("en", JsonValue.obj [("nav", JsonValue.obj
          [("home", JsonValue.str "Home")])])] "en" "nav.missing"
      = (JsonValue.str "nav.missing", true) :=
  translate_missing_key _ "en" "nav.missing" rfl

/-- C10: a key path whose segments all resolve but whose final value is falsy
(an empty-string leaf) yields the key itself, because each step is guarded by
truthiness; such an entry is indistinguishable from a missing one. -/
theorem translate_falsy_leaf (translations : List (String × JsonValue))
    (lang key : String) (v : JsonValue)
    (h : resolvePath (translations.lookup lang) (jsSplit '.' key) = some v)
    (hf : jsTruthy v = false) :
    i18n.translate translations lang key = (JsonValue.str key, true) :=
  translateGo_of_resolve_falsy key (jsSplit '.' key)
    (translations.lookup lang) v (jsSplit_ne_nil '.' key) h hf

/-- Witness for C10 on a present-but-empty leaf. -/
theorem translate_falsy_leaf_witness :
    i18n.translate [("en", JsonValue.obj [("empty", JsonValue.str "")])]
        "en" "empty" = (JsonValue.str "empty", true) :=
  translate_falsy_leaf _ "en" "empty" (JsonValue.str "") rfl rfl

/-- Counterexample to C7: a key resolving to an interior node of the
dictionary returns that object, which is neither a string nor the key. -/
theorem translate_nonstring_counterexample :
    (i18n.translate
        [("en", JsonValue.obj [("nav", JsonValue.obj
          [("home", JsonValue.str "Home")])])] "en" "nav").1
      = JsonValue.obj [("home", JsonValue.str "Home")] ∧
    JsonValue.isString (JsonValue.obj [("home", JsonValue.str "Home")]) = false :=
  ⟨rfl, rfl⟩

/-- C7 (amended): `translate` returns either the key itself or the (truthy)
value the key path resolves to; that value is a string for leaf entries, but a
key resolving to a nested object returns the object rather than a string. -/
theorem translate_key_or_resolved (translations : List (String × JsonValue))
    (lang key : String) :
    (i18n.translate translations lang key).1 = JsonValue.str key ∨
      (resolvePath (translations.lookup lang) (jsSplit '.' key) =
          some (i18n.translate translations lang key).1 ∧
        jsTruthy (i18n.translate translations lang key).1 = true) := by
  simp only [i18n.translate]
  cases h : resolvePath (translations.lookup lang) (jsSplit '.' key) with
  | none =>
    rw [translateGo_of_resolve_none key _ _ (jsSplit_ne_nil '.' key) h]
    left
    rfl
  | some v =>
    cases ht : jsTruthy v with
    | false =>
      rw [translateGo_of_resolve_falsy key _ _ v (jsSplit_ne_nil '.' key) h ht]
      left
      rfl
    | true =>
      rw [translateGo_of_resolve_truthy key _ _ v h ht]
      right
      exact ⟨rfl, ht⟩

/-- The document-title update at the top of `applyTranslations`:
`const pageTitle = this.translate('meta.title'); if (pageTitle)
\x7b document.title = pageTitle; \x7d`. -/
def i18n.newDocumentTitle (translations : List (String × JsonValue))
    (currentLanguage : String) (oldTitle : JsonValue) : JsonValue :=
  let pageTitle := (i18n.translate translations currentLanguage "meta.title").1
  if jsTruthy pageTitle = true then pageTitle else oldTitle

/-- Counterexample to C8: with a dictionary in which `meta.title` does not
resolve, the document title is still overwritten (with the literal key),
because the unresolved lookup returns the truthy key string. -/
theorem newDocumentTitle_counterexample :
    resolvePath (List.lookup "en" [("en", JsonValue.obj [])])
        (jsSplit '.' "meta.title") = none ∧
    i18n.newDocumentTitle [("en", JsonValue.obj [])] "en"
        (JsonValue.str "Old Title") = JsonValue.str "meta.title" ∧
    "meta.title" ≠ "Old Title" :=
  ⟨rfl, rfl, by decide⟩

/-- C8 (amended): applying translations always sets the page title: to the
resolved value when `meta.title` resolves to a truthy value, and to the
literal key string `meta.title` when the path is missing or resolves to a
falsy leaf. -/
theorem newDocumentTitle_resolved_or_key (translations : List (String × JsonValue))
    (lang : String) (oldTitle : JsonValue) :
    (∀ v, resolvePath (translations.lookup lang) (jsSplit '.' "meta.title") =
        some v → jsTruthy v = true →
        i18n.newDocumentTitle translations lang oldTitle = v) ∧
    (resolvePath (translations.lookup lang) (jsSplit '.' "meta.title") = none →
      i18n.newDocumentTitle translations lang oldTitle =
        JsonValue.str "meta.title") ∧
    (∀ v, resolvePath (translations.lookup lang) (jsSplit '.' "meta.title") =
        some v → jsTruthy v = false →
        i18n.newDocumentTitle translations lang oldTitle =
          JsonValue.str "meta.title") := by
  refine ⟨?_, ?_, ?_⟩
  · intro v h ht
    simp only [i18n.newDocumentTitle, i18n.translate]
    rw [translateGo_of_resolve_truthy _ _ _ v h ht]
    show (if jsTruthy v = true then v else oldTitle) = v
    rw [if_pos ht]
  · intro h
    simp only [i18n.newDocumentTitle, i18n.translate]
    rw [translateGo_of_resolve_none _ _ _ (jsSplit_ne_nil '.' "meta.title") h]
    rfl
  · intro v h hf
    simp only [i18n.newDocumentTitle, i18n.translate]
    rw [translateGo_of_resolve_falsy _ _ _ v (jsSplit_ne_nil '.' "meta.title") h hf]
    rfl

/-- Witness for the amended C8 on a dictionary where `meta.title` resolves. -/
theorem newDocumentTitle_resolved_or_key_witness :
    i18n.newDocumentTitle
        [("en", JsonValue.obj [("meta", JsonValue.obj
          [("title", JsonValue.str "ENDEV")])])] "en" (JsonValue.str "Old")
      = JsonValue.str "ENDEV" :=
  (newDocumentTitle_resolved_or_key _ "en" (JsonValue.str "Old")).1
    (JsonValue.str "ENDEV") rfl rfl

/-- Embedding of `String.prototype.toLowerCase` on the ASCII range (language
tags are ASCII). -/
def jsToLower (s : String) : String :=
  String.mk (s.toList.map Char.toLower)

/-- Primary-subtag extraction in `detectLanguage`:
`(navigator.language || navigator.userLanguage || 'en').toLowerCase()
.split('-')[0]`.  The two navigator fields are modelled as one optional
reported locale. -/
def browserPrimary (browserLang : Option String) : String :=
  (jsSplit '-' (jsToLower (jsOr browserLang "en"))).headD ""

/-- The browser-locale fallback of `detectLanguage`: the primary subtag if
supported, else the fixed default. -/
def browserDetect (browserLang : Option String) : String :=
  if availableLanguages.contains (browserPrimary browserLang) = true then
    browserPrimary browserLang
  else defaultLanguage

/-- The guard `savedLang && availableLanguages.indexOf(savedLang) !== -1`:
the stored value is present, truthy and supported. -/
def savedUsable : Option String → Bool
  | some s => s != "" && availableLanguages.contains s
  | none => false

/-- Embedding of `i18n.detectLanguage`: a usable saved preference wins;
otherwise the browser locale's primary subtag if supported; otherwise the
default. -/
def i18n.detectLanguage (saved browserLang : Option String) : String :=
  if savedUsable saved = true then saved.getD ""
  else browserDetect browserLang

/-- C4: language detection priority: a stored supported code is used
regardless of the browser locale (stored `fr` yields `fr`); with no stored
code, locale `de-DE` yields `de` and unsupported `ja-JP` falls back to the
default; in general an unusable stored value defers to the primary subtag
when supported and to the default otherwise. -/
theorem detectLanguage_priority :
    (∀ bl, i18n.detectLanguage (some "fr") bl = "fr") ∧
    i18n.detectLanguage none (some "de-DE") = "de" ∧
    i18n.detectLanguage none (some "ja-JP") = defaultLanguage ∧
    (∀ s bl, availableLanguages.contains s = true →
      i18n.detectLanguage (some s) bl = s) ∧
    (∀ saved bl, savedUsable saved = false →
      availableLanguages.contains (browserPrimary bl) = true →
      i18n.detectLanguage saved bl = browserPrimary bl) ∧
    (∀ saved bl, savedUsable saved = false →
      availableLanguages.contains (browserPrimary bl) = false →
      i18n.detectLanguage saved bl = defaultLanguage) := by
  refine ⟨?_, ?_, ?_, ?_, ?_, ?_⟩
  · intro bl; rfl
  · rfl
  · rfl
  · intro s bl hs
    have hmem : s ∈ availableLanguages := by simpa using hs
    fin_cases hmem <;> rfl
  · intro saved bl h1 h2
    simp only [i18n.detectLanguage, browserDetect]
    rw [if_neg (by simp [h1]), if_pos h2]
  · intro saved bl h1 h2
    simp only [i18n.detectLanguage, browserDetect]
    rw [if_neg (by simp [h1]), if_neg (by rw [h2]; exact Bool.false_ne_true)]

/-- Witness for C4 at a concrete supported stored code. -/
theorem detectLanguage_priority_witness :
    i18n.detectLanguage (some "es") none = "es" :=
  detectLanguage_priority.2.2.2.1 "es" none (by decide)

/-- The mutable state of the i18n module: the active code, the persisted
localStorage preference (`endev_language`), and the session dictionary
cache. -/
structure I18nState where
  currentLanguage : String
  storedLanguage : Option String
  translations : List (String × JsonValue)

/-- The module literal's initial state: `currentLanguage: 'en'`, empty cache,
alongside whatever localStorage holds. -/
def i18n.initialState (stored : Option String) : I18nState :=
  { currentLanguage := "en"
    storedLanguage := stored
    translations := [] }

/-- Embedding of `loadLanguage`'s effect: a cached dictionary is returned
as-is; otherwise the fetched file (`none` models a failed fetch or a parse
error, which rejects) is cached and returned. -/
def i18n.loadLanguage (st : I18nState) (lang : String)
    (fetchResult : Option JsonValue) : I18nState × Option JsonValue :=
  match st.translations.lookup lang with
  | some cached => (st, some cached)
  | none =>
    match fetchResult with
    | some data =>
        ({ st with translations := (lang, data) :: st.translations }, some data)
    | none => (st, none)

/-- Embedding of `i18n.init`: detect the language, adopt it as current, load
its dictionary, and on a load failure fall back to loading the default
language's dictionary (the current code is not changed by the fallback). -/
def i18n.init (st : I18nState) (browserLang : Option String)
    (fetchResult : String → Option JsonValue) : I18nState :=
  let lang := i18n.detectLanguage st.storedLanguage browserLang
  let st1 := { st with currentLanguage := lang }
  let load := i18n.loadLanguage st1 lang (fetchResult lang)
  match load.2 with
  | some _ => load.1
  | none =>
      (i18n.loadLanguage load.1 defaultLanguage
        (fetchResult defaultLanguage)).1

/-- Embedding of `i18n.setLanguage`: an unsupported code is rejected with no
state change; a supported one becomes current, is persisted, and its
dictionary is loaded. -/
def i18n.setLanguage (st : I18nState) (lang : String)
    (fetchResult : Option JsonValue) : I18nState :=
  if availableLanguages.contains lang = false then st
  else
    let st1 : I18nState :=
      { st with
        currentLanguage := lang
        storedLanguage := some lang }
    (i18n.loadLanguage st1 lang fetchResult).1

theorem loadLanguage_currentLanguage (st : I18nState) (lang : String)
    (fetchResult : Option JsonValue) :
    (i18n.loadLanguage st lang fetchResult).1.currentLanguage =
      st.currentLanguage := by
  simp only [i18n.loadLanguage]
  split
  · rfl
  · split <;> rfl

theorem browserDetect_mem (bl : Option String) :
    availableLanguages.contains (browserDetect bl) = true := by
  simp only [browserDetect]
  split
  · rename_i h
    exact h
  · rfl

theorem detectLanguage_mem (saved bl : Option String) :
    availableLanguages.contains (i18n.detectLanguage saved bl) = true := by
  simp only [i18n.detectLanguage]
  split
  · rename_i h
    cases saved with
    | none => simp [savedUsable] at h
    | some s =>
      simp only [savedUsable, Bool.and_eq_true] at h
      simpa using h.2
  · exact browserDetect_mem bl

/-- C9: the language switch rejects any unsupported code with no action: the
active language, the persisted preference and the cached dictionaries are all
left unchanged. -/
theorem setLanguage_rejects_unsupported (st : I18nState) (lang : String)
    (fetchResult : Option JsonValue)
    (h : availableLanguages.contains lang = false) :
    i18n.setLanguage st lang fetchResult = st := by
  simp only [i18n.setLanguage]
  rw [if_pos h]

/-- Witness for C9 at the unsupported code `ja`. -/
theorem setLanguage_rejects_unsupported_witness :
    i18n.setLanguage (i18n.initialState none) "ja" none =
      i18n.initialState none :=
  setLanguage_rejects_unsupported (i18n.initialState none) "ja" none (by decide)

/-- C5: the active language is always a supported code: it starts supported,
detection only returns supported codes, `init` establishes the invariant, and
`setLanguage` (with the dictionary load leaving the code untouched) preserves
it. -/
theorem i18n_language_invariant :
    (∀ stored, availableLanguages.contains
        (i18n.initialState stored).currentLanguage = true) ∧
    (∀ saved bl,
      availableLanguages.contains (i18n.detectLanguage saved bl) = true) ∧
    (∀ st bl fetchResult, availableLanguages.contains
        (i18n.init st bl fetchResult).currentLanguage = true) ∧
    (∀ st lang fetchResult,
      availableLanguages.contains st.currentLanguage = true →
      availableLanguages.contains
        (i18n.setLanguage st lang fetchResult).currentLanguage = true) := by
  refine ⟨?_, ?_, ?_, ?_⟩
  · intro stored; rfl
  · exact detectLanguage_mem
  · intro st bl fetchResult
    simp only [i18n.init]
    split
    · rw [loadLanguage_currentLanguage]
      exact detectLanguage_mem st.storedLanguage bl
    · rw [loadLanguage_currentLanguage, loadLanguage_currentLanguage]
      exact detectLanguage_mem st.storedLanguage bl
  · intro st lang fetchResult hst
    simp only [i18n.setLanguage]
    split
    · exact hst
    · rename_i h
      rw [loadLanguage_currentLanguage]
      simpa using h

/-- Witness for C5: the invariant is preserved by a concrete language
switch from the initial state. -/
theorem i18n_language_invariant_witness :
    availableLanguages.contains
      (i18n.setLanguage (i18n.initialState none) "fr" none).currentLanguage
      = true :=
  i18n_language_invariant.2.2.2 (i18n.initialState none) "fr" none (by decide)
